import Mathlib

/-
Verification of the advlog convenience logging layer: formatters
(aligned columns, compact single-letter levels, JSON), the logger
registry/manager with its file strategies, the per-name logger cache,
and the session-initialization file contract.

The library core is modelled from the specification (the repository
ships its tests and examples; the core module advlog.core is absent),
with each modelled definition documented as such.
-/

set_option autoImplicit false

namespace Advlog

/-- Modelled from the spec: the ordered level enum
DEBUG<INFO<WARNING<ERROR<CRITICAL of a log record. -/
inductive Level where
  | debug
  | info
  | warning
  | error
  | critical
deriving DecidableEq, Repr

/-- Modelled from the spec: the upper-case textual name of a level, as
emitted by the JSON formatter and the bracketed level field. -/
def levelName : Level → String
  | .debug => "DEBUG"
  | .info => "INFO"
  | .warning => "WARNING"
  | .error => "ERROR"
  | .critical => "CRITICAL"

/-- Modelled from the spec: alignment of a field inside its configured
width — left, right or center. -/
inductive Align where
  | left
  | right
  | center
deriving DecidableEq, Repr

/-- A run of `n` space characters, the padding material. -/
def spaces (n : Nat) : String :=
  String.mk (List.replicate n ' ')

/-- Modelled from the spec: pad a rendered field text to width `w`
using alignment `a`.  Left-align pads on the right, right-align pads on
the left, center-align splits padding as evenly as possible with the
extra space going to the right.  Text of length `≥ w` is returned
unmodified: width is a minimum, not a maximum (never truncate). -/
def padTo (s : String) (w : Nat) (a : Align) : String :=
  if w ≤ s.length then s
  else
    match a with
    | .left => s ++ spaces (w - s.length)
    | .right => spaces (w - s.length) ++ s
    | .center => spaces ((w - s.length) / 2) ++ s ++ spaces ((w - s.length) - (w - s.length) / 2)

/-- Modelled from the spec: render one enabled field given its optional
configured width (`none` = unbounded, emitted at natural length). -/
def formatField (s : String) (width : Option Nat) (a : Align) : String :=
  match width with
  | none => s
  | some w => padTo s w a

/-- Modelled from the spec: a log record snapshot — timestamp text,
level, logger name, source location, rendered message, and the ordered
mapping of extra key/value pairs carried alongside the fixed fields. -/
structure LogRecord where
  timestamp : String
  level : Level
  logger : String
  filename : String
  lineno : Nat
  message : String
  extras : List (String × String)
deriving DecidableEq, Repr

/-- Modelled from the spec: the aligned formatter joins its enabled
padded fields with the ` | ` separator, the message field last and
unbounded. -/
structure AlignedConfig where
  time_width : Option Nat
  level_width : Option Nat
  location_width : Option Nat
  align_time : Align
  align_level : Align
  align_location : Align
deriving Repr

/-- Modelled from the spec: render a record in the aligned style:
padded time, level and location fields then the message, separated by
` | `. -/
def alignedFormat (cfg : AlignedConfig) (r : LogRecord) : String :=
  formatField r.timestamp cfg.time_width cfg.align_time ++ " | " ++
  formatField (levelName r.level) cfg.level_width cfg.align_level ++ " | " ++
  formatField (r.filename ++ ":" ++ toString r.lineno) cfg.location_width cfg.align_location ++
  " | " ++ r.message

/-- Modelled from the spec: the compact formatter renders the level as
a single bracketed uppercase character. -/
def levelChar : Level → Char
  | .debug => 'D'
  | .info => 'I'
  | .warning => 'W'
  | .error => 'E'
  | .critical => 'C'

/-- The bracketed level token of the compact style. -/
def levelToken (l : Level) : String :=
  "[" ++ String.mk [levelChar l] ++ "]"

/-- Modelled from the spec: the compact formatter emits the bracketed
single-character level token, a single space as separator, then the
message. -/
def compactFormat (r : LogRecord) : String :=
  levelToken r.level ++ " " ++ r.message

/-- The string `t` occurs contiguously inside `s`. -/
def StrContains (s t : String) : Prop :=
  ∃ x y, s = x ++ t ++ y

/-- The fixed key set of the JSON formatter. -/
def fixedKeys : List String :=
  ["timestamp", "level", "logger", "message"]

/-- Modelled from the spec: the JSON formatter emits one JSON object
per record, modelled as its key/value mapping: keys `timestamp`,
`level`, `logger`, `message`, and, if `include_extras` is true, every
extra key merged at top level; extras never overwrite the fixed keys
(fixed keys take precedence on collision). -/
def jsonFormat (include_extras : Bool) (r : LogRecord) : List (String × String) :=
  let fixed : List (String × String) :=
    [("timestamp", r.timestamp), ("level", levelName r.level),
     ("logger", r.logger), ("message", r.message)]
  if include_extras then
    fixed ++ r.extras.filter (fun kv => ¬ kv.1 ∈ fixedKeys)
  else
    fixed

/-- First-match lookup in a key/value mapping, the way a JSON object
maps a key to its value. -/
def lookupKey (k : String) : List (String × String) → Option String
  | [] => none
  | (k', v) :: rest => if k' = k then some v else lookupKey k rest

/-- Modelled from the spec: the formatter kinds the factory can
produce. -/
inductive FormatterKind where
  | standard
  | table
  | compact
  | column
deriving DecidableEq, Repr

/-- Modelled from the spec: the formatter factory's name lookup —
`"standard"`, `"table"`, `"compact"`, `"column"` produce the
corresponding preconfigured formatter; an unrecognized name falls back
to the standard style without error (the function is total). -/
def create_aligned_formatter (style : String) : FormatterKind :=
  if style = "table" then .table
  else if style = "compact" then .compact
  else if style = "column" then .column
  else .standard

/-- Modelled from the spec: how a logger's output maps to files —
dedicated file (`separate`), the registry's shared file (`merged`), or
no file sink (`nofile`). -/
inductive FileStrategy where
  | separate
  | merged
  | nofile
deriving DecidableEq, Repr

/-- Modelled from the spec: the error kinds of the system; only
`configurationError` is exercised here. -/
inductive AdvlogError where
  | configurationError
  | formatError
  | sinkError
deriving DecidableEq, Repr

/-- Modelled from the spec: a sink attached to a handle — the shared
console, a private console, or a file sink at a path. -/
inductive Sink where
  | sharedConsole
  | privateConsole
  | file (path : String)
deriving DecidableEq, Repr

/-- Modelled from the spec: a LoggerHandle — a named wrapper around the
underlying logger plus its attached sinks; `hid` stands for the
object's identity so that "identical handle" is expressible. -/
structure Handle where
  hid : Nat
  name : String
  sinks : List Sink
deriving DecidableEq, Repr

/-- Modelled from the spec: the registry's process-wide state — shared
console flag, optional shared file, color flag, the name→handle
mapping, and a counter supplying fresh handle identities. -/
structure Registry where
  sharedConsole : Bool
  sharedFile : Option String
  useColor : Bool
  handles : List (String × Handle)
  nextId : Nat
deriving DecidableEq, Repr

/-- First-match lookup of a handle by name. -/
def findHandle (n : String) : List (String × Handle) → Option Handle
  | [] => none
  | (n', h) :: rest => if n' = n then some h else findHandle n rest

/-- Modelled from the spec: the console sinks attached at registration:
if `use_console` and the registry has a shared console the handle is
attached to it, otherwise a private console sink is created. -/
def consoleSinks (reg : Registry) (use_console : Bool) : List Sink :=
  if use_console then
    if reg.sharedConsole then [Sink.sharedConsole] else [Sink.privateConsole]
  else []

/-- Modelled from the spec: the file sinks a strategy attaches —
`separate` a dedicated file sink at `file_path`, `merged` the
registry's shared file sink (ConfigurationError when no shared file was
configured), `nofile` none. -/
def strategySinks (reg : Registry) (strategy : FileStrategy)
    (file_path : Option String) : Except AdvlogError (List Sink) :=
  match strategy with
  | .separate =>
    match file_path with
    | some p => .ok [Sink.file p]
    | none => .ok []
  | .merged =>
    match reg.sharedFile with
    | some p => .ok [Sink.file p]
    | none => .error .configurationError
  | .nofile => .ok []

/-- Modelled from the spec: `register(name, file_strategy, file_path?,
use_console)`.  If `name` is already registered the existing handle is
returned unchanged and the later arguments are ignored; otherwise a
fresh handle is built with the strategy's file sinks and the console
sinks, and on the ConfigurationError path the registry is returned
unchanged. -/
def registerLogger (reg : Registry) (name : String) (strategy : FileStrategy)
    (file_path : Option String) (use_console : Bool) :
    Except AdvlogError Handle × Registry :=
  match findHandle name reg.handles with
  | some h => (.ok h, reg)
  | none =>
    match strategySinks reg strategy file_path with
    | .error e => (.error e, reg)
    | .ok fsinks =>
      let h : Handle := ⟨reg.nextId, name, fsinks ++ consoleSinks reg use_console⟩
      (.ok h, { reg with handles := (name, h) :: reg.handles, nextId := reg.nextId + 1 })

/-- Modelled from the spec: the per-name `AdvancedLogger` factory's
cache — one instance per distinct name (instances stand as identity
numbers), plus a fresh-identity counter. -/
structure ALState where
  instances : List (String × Nat)
  nextId : Nat
deriving DecidableEq, Repr

/-- First-match lookup of a cached instance by name. -/
def findInstance (n : String) : List (String × Nat) → Option Nat
  | [] => none
  | (n', i) :: rest => if n' = n then some i else findInstance n rest

/-- Modelled from the spec: constructing the per-name logger — returns
the cached instance for the name when one exists, otherwise creates a
fresh instance and caches it. -/
def advancedLoggerNew (st : ALState) (name : String) : Nat × ALState :=
  match findInstance name st.instances with
  | some i => (i, st)
  | none => (st.nextId, ⟨(name, st.nextId) :: st.instances, st.nextId + 1⟩)

/-- Modelled from the spec: `get_instance(name)` — a pure lookup that
returns the cached instance or None, never creating one; the cache is
returned unchanged. -/
def get_instance (st : ALState) (name : String) : Option Nat × ALState :=
  (findInstance name st.instances, st)

/-- Modelled from the spec: `reset_instance(name)` clears one name's
cached instance so a fresh one is built next time. -/
def reset_instance (st : ALState) (name : String) : ALState :=
  ⟨st.instances.filter (fun kv => ! decide (kv.1 = name)), st.nextId⟩

/-- A file system as files holding lists of written lines. -/
def LineFS : Type := String → List String

/-- Modelled from the spec: writing one rendered line through one sink;
a file sink appends the line to its path, console sinks leave the file
system unchanged. -/
def writeSink (msg : String) (fs : LineFS) : Sink → LineFS
  | Sink.file p => fun q => if q = p then fs q ++ [msg] else fs q
  | Sink.sharedConsole => fs
  | Sink.privateConsole => fs

/-- Modelled from the spec: emitting a record through a handle writes
the rendered line through every attached sink. -/
def emit (fs : LineFS) (h : Handle) (msg : String) : LineFS :=
  h.sinks.foldl (writeSink msg) fs

/-- A file system as files holding their text content. -/
def TextFS : Type := String → String

/-- Modelled from the spec: the file-opening step of `initialize`:
`file_mode="write"` truncates the file at `log_file`,
`file_mode="append"` resumes it without truncation. -/
inductive FileMode where
  | write
  | append
deriving DecidableEq, Repr

/-- Modelled from the spec: what `initialize(log_file, file_mode)` does
to the file at `log_file`. -/
def initializeFile (fs : TextFS) (log_file : String) (mode : FileMode) : TextFS :=
  match mode with
  | .write => fun q => if q = log_file then "" else fs q
  | .append => fs

/-- Modelled from the spec: one logged line appended to the session's
log file. -/
def writeLog (log_file : String) (fs : TextFS) (msg : String) : TextFS :=
  fun q => if q = log_file then fs q ++ msg else fs q

/-- Concatenation of a list of written chunks, in order. -/
def joinAll : List String → String
  | [] => ""
  | m :: rest => m ++ joinAll rest

/-- Modelled from the spec: one run — `initialize(log_file, file_mode)`
followed by logging each message in order. -/
def runSession (fs : TextFS) (log_file : String) (mode : FileMode)
    (msgs : List String) : TextFS :=
  msgs.foldl (writeLog log_file) (initializeFile fs log_file mode)

theorem spaces_length (n : Nat) : (spaces n).length = n := by
  simp [spaces]

/-- C1: for every formatter field with a configured width `w` and alignment in
{left, right, center}, a rendered field text shorter than `w` is padded to
length exactly `w` and still contains the text; a text of length `≥ w` is
returned unmodified — the field is never truncated. -/
theorem padded_field_width_no_truncation (s : String) (w : Nat) (a : Align) :
    (s.length < w →
      (formatField s (some w) a).length = w ∧
      ∃ x y, formatField s (some w) a = x ++ s ++ y) ∧
    (w ≤ s.length → formatField s (some w) a = s) := by
  show (s.length < w → (padTo s w a).length = w ∧ ∃ x y, padTo s w a = x ++ s ++ y) ∧
    (w ≤ s.length → padTo s w a = s)
  constructor
  · intro hlt
    unfold padTo
    rw [if_neg (by omega)]
    refine ⟨?_, ?_⟩
    · cases a <;> simp [spaces_length] <;> omega
    · cases a
      · exact ⟨"", spaces (w - s.length), by simp⟩
      · exact ⟨spaces (w - s.length), "", by simp⟩
      · exact ⟨spaces ((w - s.length) / 2),
          spaces ((w - s.length) - (w - s.length) / 2), rfl⟩
  · intro hge
    unfold padTo
    rw [if_pos hge]

/-- Witness for C1: padding "ab" to width 5 centered yields length exactly 5;
"abcdef" at width 5 comes back unmodified. -/
theorem padded_field_width_no_truncation_witness :
    (formatField "ab" (some 5) .center).length = 5 ∧
    formatField "abcdef" (some 5) .left = "abcdef" :=
  ⟨((padded_field_width_no_truncation "ab" 5 .center).1 (by decide)).1,
   (padded_field_width_no_truncation "abcdef" 5 .left).2 (by decide)⟩

/-- C6: the compact formatter renders the level as a single bracketed uppercase
character determined exactly by the level — DEBUG→[D], INFO→[I], WARNING→[W],
ERROR→[E], CRITICAL→[C] — and its output contains that token together with the
message. -/
theorem compact_level_token_and_message (r : LogRecord) :
    levelToken .debug = "[D]" ∧ levelToken .info = "[I]" ∧
    levelToken .warning = "[W]" ∧ levelToken .error = "[E]" ∧
    levelToken .critical = "[C]" ∧
    StrContains (compactFormat r) (levelToken r.level) ∧
    StrContains (compactFormat r) r.message := by
  refine ⟨rfl, rfl, rfl, rfl, rfl,
    ⟨"", " " ++ r.message, ?_⟩, ⟨levelToken r.level ++ " ", "", ?_⟩⟩
  · simp [compactFormat, String.append_assoc]
  · simp [compactFormat]

/-- C7: the factory maps "standard", "table", "compact", "column" to the
corresponding formatter kind, and any unrecognized style name yields the
standard formatter without error (the factory is a total function). -/
theorem create_aligned_formatter_styles (s : String)
    (h : ¬ s = "table" ∧ ¬ s = "compact" ∧ ¬ s = "column") :
    create_aligned_formatter "standard" = .standard ∧
    create_aligned_formatter "table" = .table ∧
    create_aligned_formatter "compact" = .compact ∧
    create_aligned_formatter "column" = .column ∧
    create_aligned_formatter s = .standard := by
  refine ⟨rfl, rfl, rfl, rfl, ?_⟩
  unfold create_aligned_formatter
  rw [if_neg h.1, if_neg h.2.1, if_neg h.2.2]

/-- Witness for C7: the unrecognized style name "invalid_style" produces the
standard formatter. -/
theorem create_aligned_formatter_styles_witness :
    create_aligned_formatter "invalid_style" = .standard :=
  (create_aligned_formatter_styles "invalid_style" (by decide)).2.2.2.2

theorem registerLogger_ok_findHandle (reg : Registry) (name : String)
    (s : FileStrategy) (p : Option String) (c : Bool) (h : Handle) (reg' : Registry)
    (hr : registerLogger reg name s p c = (.ok h, reg')) :
    findHandle name reg'.handles = some h := by
  unfold registerLogger at hr
  cases hfind : findHandle name reg.handles with
  | some h0 =>
    rw [hfind] at hr
    obtain ⟨h1, h2⟩ := Prod.mk.injEq .. ▸ hr
    cases h1
    cases h2
    exact hfind
  | none =>
    rw [hfind] at hr
    cases hsinks : strategySinks reg s p with
    | error e => rw [hsinks] at hr; exact absurd (congrArg Prod.fst hr) (by simp)
    | ok fsinks =>
      rw [hsinks] at hr
      obtain ⟨h1, h2⟩ := Prod.mk.injEq .. ▸ hr
      cases h1
      cases h2
      simp [findHandle]

/-- C2: registration is idempotent by name — after a successful registration of
`name`, registering `name` again with any strategy, path or console arguments
returns the identical handle and leaves the registry unchanged; likewise
constructing the per-name logger twice with the same name yields the same
instance and the same cache. -/
theorem register_idempotent_by_name (reg reg' : Registry) (name : String)
    (s1 s2 : FileStrategy) (p1 p2 : Option String) (c1 c2 : Bool) (h : Handle)
    (hreg : registerLogger reg name s1 p1 c1 = (.ok h, reg'))
    (st : ALState) :
    registerLogger reg' name s2 p2 c2 = (.ok h, reg') ∧
    (advancedLoggerNew (advancedLoggerNew st name).2 name).1
      = (advancedLoggerNew st name).1 ∧
    (advancedLoggerNew (advancedLoggerNew st name).2 name).2
      = (advancedLoggerNew st name).2 := by
  refine ⟨?_, ?_, ?_⟩
  · have hfound := registerLogger_ok_findHandle reg name s1 p1 c1 h reg' hreg
    unfold registerLogger
    rw [hfound]
  all_goals
    cases hi : findInstance name st.instances with
    | some i => simp [advancedLoggerNew, hi]
    | none => simp [advancedLoggerNew, hi, findInstance]

/-- Witness for C2 at a concrete registry and cache: re-registering "X" returns
the identical handle and registry, and re-constructing the per-name logger "X"
returns the same instance and cache. -/
theorem register_idempotent_by_name_witness :
    registerLogger ⟨true, none, false, [("X", ⟨0, "X", [Sink.sharedConsole]⟩)], 1⟩
        "X" .merged none false
      = (.ok ⟨0, "X", [Sink.sharedConsole]⟩,
         ⟨true, none, false, [("X", ⟨0, "X", [Sink.sharedConsole]⟩)], 1⟩) ∧
    (advancedLoggerNew (advancedLoggerNew ⟨[], 0⟩ "X").2 "X").1
      = (advancedLoggerNew ⟨[], 0⟩ "X").1 ∧
    (advancedLoggerNew (advancedLoggerNew ⟨[], 0⟩ "X").2 "X").2
      = (advancedLoggerNew ⟨[], 0⟩ "X").2 :=
  register_idempotent_by_name ⟨true, none, false, [], 0⟩
    ⟨true, none, false, [("X", ⟨0, "X", [Sink.sharedConsole]⟩)], 1⟩
    "X" .nofile .merged none none true false ⟨0, "X", [Sink.sharedConsole]⟩
    rfl ⟨[], 0⟩

/-- C8: registering with file_strategy merged on a registry with no shared file
configured fails with ConfigurationError and leaves the registry unchanged;
with a shared file configured it succeeds and the handle carries the shared
file sink. -/
theorem register_merged_shared_file (reg : Registry) (name : String)
    (p : Option String) (c : Bool)
    (hfresh : findHandle name reg.handles = none) :
    (reg.sharedFile = none →
      registerLogger reg name .merged p c = (.error .configurationError, reg)) ∧
    (∀ q, reg.sharedFile = some q →
      ∃ h reg', registerLogger reg name .merged p c = (.ok h, reg') ∧
        Sink.file q ∈ h.sinks) := by
  constructor
  · intro hnone
    unfold registerLogger
    rw [hfresh]
    unfold strategySinks
    rw [hnone]
  · intro q hq
    refine ⟨⟨reg.nextId, name, [Sink.file q] ++ consoleSinks reg c⟩,
      { reg with
        handles := (name, ⟨reg.nextId, name, [Sink.file q] ++ consoleSinks reg c⟩)
          :: reg.handles,
        nextId := reg.nextId + 1 }, ?_, by simp⟩
    unfold registerLogger
    rw [hfresh]
    unfold strategySinks
    rw [hq]

/-- Witness for C8: with no shared file, merged registration of "A" fails with
ConfigurationError and returns the registry unchanged; with shared file
"all.log" it succeeds and the handle carries the shared file sink. -/
theorem register_merged_shared_file_witness :
    registerLogger ⟨false, none, false, [], 0⟩ "A" .merged none false
      = (.error .configurationError, ⟨false, none, false, [], 0⟩) ∧
    ∃ h reg', registerLogger ⟨false, some "all.log", false, [], 0⟩ "A" .merged none false
      = (.ok h, reg') ∧ Sink.file "all.log" ∈ h.sinks :=
  ⟨(register_merged_shared_file ⟨false, none, false, [], 0⟩ "A" none false rfl).1 rfl,
   (register_merged_shared_file ⟨false, some "all.log", false, [], 0⟩ "A" none false
     rfl).2 "all.log" rfl⟩

theorem findInstance_filter_ne (name : String) (l : List (String × Nat)) :
    findInstance name (l.filter (fun kv => ! decide (kv.1 = name))) = none := by
  induction l with
  | nil => rfl
  | cons kv rest ih =>
    by_cases hk : kv.1 = name
    · simp [List.filter_cons, hk, ih]
    · simp [List.filter_cons, hk, findInstance, ih]

/-- C10: for a name with no cached per-name instance (never constructed, or
cleared by reset_instance), get_instance returns none rather than creating an
instance, and the cache is left unchanged. -/
theorem get_instance_absent_returns_none (st : ALState) (name : String)
    (h : findInstance name st.instances = none) :
    get_instance st name = (none, st) ∧
    (get_instance (reset_instance st name) name).1 = none ∧
    (get_instance (reset_instance st name) name).2 = reset_instance st name := by
  refine ⟨?_, ?_, rfl⟩
  · unfold get_instance
    rw [h]
  · unfold get_instance reset_instance
    simpa using findInstance_filter_ne name st.instances

/-- Witness for C10: on a cache holding only "A", looking up "B" returns none
and leaves the cache unchanged; after resetting "B" the lookup still returns
none. -/
theorem get_instance_absent_returns_none_witness :
    get_instance ⟨[("A", 0)], 1⟩ "B" = (none, ⟨[("A", 0)], 1⟩) ∧
    (get_instance (reset_instance ⟨[("A", 0)], 1⟩ "B") "B").1 = none ∧
    (get_instance (reset_instance ⟨[("A", 0)], 1⟩ "B") "B").2
      = reset_instance ⟨[("A", 0)], 1⟩ "B" :=
  get_instance_absent_returns_none ⟨[("A", 0)], 1⟩ "B" (by decide)

theorem foldl_writeLog_at (P : String) (msgs : List String) (fs : TextFS) :
    (msgs.foldl (writeLog P) fs) P = fs P ++ joinAll msgs := by
  induction msgs generalizing fs with
  | nil => simp [joinAll]
  | cons m rest ih =>
    show (rest.foldl (writeLog P) (writeLog P fs m)) P = fs P ++ joinAll (m :: rest)
    rw [ih (writeLog P fs m)]
    simp [writeLog, joinAll, String.append_assoc]

/-- C3: two runs of initialize on the same log file, both with
file_mode=append, leave the file holding both runs' logged content
concatenated in order — the second initialize does not truncate the first
run's content; file_mode=write truncates, so a write-mode run's file holds
only that run's content. -/
theorem append_mode_concatenates_runs (fs : TextFS) (P : String)
    (ms1 ms2 : List String) :
    runSession (runSession fs P .append ms1) P .append ms2 P
      = fs P ++ joinAll ms1 ++ joinAll ms2 ∧
    runSession fs P .write ms1 P = joinAll ms1 := by
  constructor
  · show (ms2.foldl (writeLog P) (initializeFile (runSession fs P .append ms1) P .append)) P
      = fs P ++ joinAll ms1 ++ joinAll ms2
    rw [show initializeFile (runSession fs P .append ms1) P .append
        = runSession fs P .append ms1 from rfl]
    rw [foldl_writeLog_at]
    show (ms1.foldl (writeLog P) (initializeFile fs P .append)) P ++ joinAll ms2
      = fs P ++ joinAll ms1 ++ joinAll ms2
    rw [show initializeFile fs P .append = fs from rfl, foldl_writeLog_at]
  · show (ms1.foldl (writeLog P) (initializeFile fs P .write)) P = joinAll ms1
    rw [foldl_writeLog_at]
    simp [initializeFile]

/-- C4: the JSON formatter's output mapping always contains the keys level,
message and logger; with include_extras=false its key list is exactly the
fixed key set (and duplicate-free), so no key outside the fixed set appears
even when the record carries extras. -/
theorem json_output_fixed_keys (b : Bool) (r : LogRecord) :
    "level" ∈ (jsonFormat b r).map Prod.fst ∧
    "message" ∈ (jsonFormat b r).map Prod.fst ∧
    "logger" ∈ (jsonFormat b r).map Prod.fst ∧
    (jsonFormat false r).map Prod.fst = fixedKeys ∧
    ((jsonFormat false r).map Prod.fst).Nodup := by
  refine ⟨?_, ?_, ?_, by simp [jsonFormat, fixedKeys], by simp [jsonFormat]⟩ <;>
    cases b <;> simp [jsonFormat]

/-- C5: with include_extras=true every extra key of the record appears at top
level of the output mapping, while each fixed key still maps to the record's
fixed value — extras never overwrite the fixed keys on collision. -/
theorem json_extras_merged_fixed_win (r : LogRecord) (k v : String)
    (hk : (k, v) ∈ r.extras) :
    k ∈ (jsonFormat true r).map Prod.fst ∧
    lookupKey "timestamp" (jsonFormat true r) = some r.timestamp ∧
    lookupKey "level" (jsonFormat true r) = some (levelName r.level) ∧
    lookupKey "logger" (jsonFormat true r) = some r.logger ∧
    lookupKey "message" (jsonFormat true r) = some r.message := by
  refine ⟨?_, by simp [jsonFormat, lookupKey], by simp [jsonFormat, lookupKey],
    by simp [jsonFormat, lookupKey], by simp [jsonFormat, lookupKey]⟩
  by_cases hf : k ∈ fixedKeys
  · fin_cases hf <;> simp [jsonFormat, fixedKeys]
  · have : (k, v) ∈ (jsonFormat true r) := by
      simp only [jsonFormat, if_pos]
      refine List.mem_append.2 (Or.inr ?_)
      exact List.mem_filter.2 ⟨hk, by simpa using hf⟩
    exact List.mem_map.2 ⟨(k, v), this, rfl⟩

/-- Witness for C5 at a concrete record carrying the extras custom_field and a
colliding level key: the extra key appears and the fixed keys keep the
record's values. -/
theorem json_extras_merged_fixed_win_witness :
    "custom_field" ∈ (jsonFormat true
      ⟨"12:00:00", .info, "test", "file.py", 42, "Test",
        [("custom_field", "custom_value"), ("level", "HACK")]⟩).map Prod.fst ∧
    lookupKey "timestamp" (jsonFormat true
      ⟨"12:00:00", .info, "test", "file.py", 42, "Test",
        [("custom_field", "custom_value"), ("level", "HACK")]⟩) = some "12:00:00" ∧
    lookupKey "level" (jsonFormat true
      ⟨"12:00:00", .info, "test", "file.py", 42, "Test",
        [("custom_field", "custom_value"), ("level", "HACK")]⟩)
      = some (levelName .info) ∧
    lookupKey "logger" (jsonFormat true
      ⟨"12:00:00", .info, "test", "file.py", 42, "Test",
        [("custom_field", "custom_value"), ("level", "HACK")]⟩) = some "test" ∧
    lookupKey "message" (jsonFormat true
      ⟨"12:00:00", .info, "test", "file.py", 42, "Test",
        [("custom_field", "custom_value"), ("level", "HACK")]⟩) = some "Test" :=
  json_extras_merged_fixed_win
    ⟨"12:00:00", .info, "test", "file.py", 42, "Test",
      [("custom_field", "custom_value"), ("level", "HACK")]⟩
    "custom_field" "custom_value" (by simp)

theorem foldl_console_only (msg : String) (cs : List Sink)
    (hcs : ∀ s ∈ cs, s = Sink.sharedConsole ∨ s = Sink.privateConsole)
    (fs : LineFS) : cs.foldl (writeSink msg) fs = fs := by
  induction cs generalizing fs with
  | nil => rfl
  | cons s rest ih =>
    have hs := hcs s (by simp)
    have hrest : ∀ t ∈ rest, t = Sink.sharedConsole ∨ t = Sink.privateConsole :=
      fun t ht => hcs t (by simp [ht])
    rcases hs with h | h <;> subst h <;>
      simpa [List.foldl, writeSink] using ih hrest fs

theorem consoleSinks_console_only (reg : Registry) (c : Bool) :
    ∀ s ∈ consoleSinks reg c,
      s = Sink.sharedConsole ∨ s = Sink.privateConsole := by
  unfold consoleSinks
  cases c <;> cases h : reg.sharedConsole <;> simp

theorem emit_single_file_sink (fs : LineFS) (hid : Nat) (n p : String)
    (cs : List Sink)
    (hcs : ∀ s ∈ cs, s = Sink.sharedConsole ∨ s = Sink.privateConsole)
    (msg q : String) :
    emit fs ⟨hid, n, Sink.file p :: cs⟩ msg q
      = if q = p then fs q ++ [msg] else fs q := by
  show (cs.foldl (writeSink msg) (writeSink msg fs (Sink.file p))) q
    = if q = p then fs q ++ [msg] else fs q
  rw [foldl_console_only msg cs hcs]
  rfl

/-- C9: two handles registered with file_strategy separate at distinct file
paths are write-isolated — after each emits its own message, each handle's
file contains its own message and not the other handle's. -/
theorem separate_files_write_isolation
    (reg : Registry) (n1 n2 p1 p2 m1 m2 : String) (c1 c2 : Bool)
    (h1 h2 : Handle) (reg1 reg2 : Registry) (fs0 : LineFS)
    (hf1 : findHandle n1 reg.handles = none)
    (hr1 : registerLogger reg n1 .separate (some p1) c1 = (.ok h1, reg1))
    (hf2 : findHandle n2 reg1.handles = none)
    (hr2 : registerLogger reg1 n2 .separate (some p2) c2 = (.ok h2, reg2))
    (hpp : p1 ≠ p2) (hmm : m1 ≠ m2)
    (hi1 : ¬ m2 ∈ fs0 p1) (hi2 : ¬ m1 ∈ fs0 p2) :
    (m1 ∈ emit (emit fs0 h1 m1) h2 m2 p1 ∧ ¬ m2 ∈ emit (emit fs0 h1 m1) h2 m2 p1) ∧
    (m2 ∈ emit (emit fs0 h1 m1) h2 m2 p2 ∧ ¬ m1 ∈ emit (emit fs0 h1 m1) h2 m2 p2) := by
  have e1 : h1 = ⟨reg.nextId, n1, Sink.file p1 :: consoleSinks reg c1⟩ := by
    unfold registerLogger at hr1
    rw [hf1] at hr1
    unfold strategySinks at hr1
    injection hr1 with ha hb
    injection ha with hc
    exact hc.symm
  have e2 : h2 = ⟨reg1.nextId, n2, Sink.file p2 :: consoleSinks reg1 c2⟩ := by
    unfold registerLogger at hr2
    rw [hf2] at hr2
    unfold strategySinks at hr2
    injection hr2 with ha hb
    injection ha with hc
    exact hc.symm
  subst e1 e2
  have w1 := emit_single_file_sink fs0 reg.nextId n1 p1
    (consoleSinks reg c1) (consoleSinks_console_only reg c1) m1
  have w2 := emit_single_file_sink (emit fs0 ⟨reg.nextId, n1, Sink.file p1 :: consoleSinks reg c1⟩ m1)
    reg1.nextId n2 p2 (consoleSinks reg1 c2) (consoleSinks_console_only reg1 c2) m2
  rw [w2 p1, w2 p2, if_neg hpp, if_pos rfl, w1 p1, w1 p2, if_pos rfl, if_neg (Ne.symm hpp)]
  refine ⟨⟨by simp, ?_⟩, ⟨by simp, ?_⟩⟩
  · intro hmem
    rcases List.mem_append.1 hmem with h | h
    · exact hi1 h
    · simp at h
      exact hmm h.symm
  · intro hmem
    rcases List.mem_append.1 hmem with h | h
    · exact hi2 h
    · simp at h
      exact hmm h

/-- Witness for C9: loggers "A" and "B" registered separately at a.log and
b.log, emitting "hello" and "world" from the empty file system: each file
contains only its own message. -/
theorem separate_files_write_isolation_witness :
    ("hello" ∈ emit (emit (fun _ => []) ⟨0, "A", [Sink.file "a.log"]⟩ "hello")
        ⟨1, "B", [Sink.file "b.log"]⟩ "world" "a.log" ∧
      ¬ "world" ∈ emit (emit (fun _ => []) ⟨0, "A", [Sink.file "a.log"]⟩ "hello")
        ⟨1, "B", [Sink.file "b.log"]⟩ "world" "a.log") ∧
    ("world" ∈ emit (emit (fun _ => []) ⟨0, "A", [Sink.file "a.log"]⟩ "hello")
        ⟨1, "B", [Sink.file "b.log"]⟩ "world" "b.log" ∧
      ¬ "hello" ∈ emit (emit (fun _ => []) ⟨0, "A", [Sink.file "a.log"]⟩ "hello")
        ⟨1, "B", [Sink.file "b.log"]⟩ "world" "b.log") :=
  separate_files_write_isolation
    ⟨false, none, false, [], 0⟩ "A" "B" "a.log" "b.log" "hello" "world" false false
    ⟨0, "A", [Sink.file "a.log"]⟩ ⟨1, "B", [Sink.file "b.log"]⟩
    ⟨false, none, false, [("A", ⟨0, "A", [Sink.file "a.log"]⟩)], 1⟩
    ⟨false, none, false,
      [("B", ⟨1, "B", [Sink.file "b.log"]⟩), ("A", ⟨0, "A", [Sink.file "a.log"]⟩)], 2⟩
    (fun _ => []) rfl rfl rfl rfl (by decide) (by decide)
    (by simp) (by simp)

end Advlog
